import Mathlib

/-!
Verification of the weekly zonal-statistics pipeline of
`dengue-santa-marta` (scripts `01_precipitation_chirps_weekly.py` and
`02_lst_modis_day_night_weekly.py`).

The two scripts share one structure: a window builder over the
epidemiological-week start dates, a per-window raster aggregation with a
constant-zero fallback, a per-pixel quality mask and unit conversion
(temperature script only), a loop collecting one zonal-statistics result per
(window, statistic) pair, and a positional string-parse reshape into the
output table.  Dates are modelled as integer day numbers (the scripts work
at day granularity), raster values as rationals, and a raster over the
study polygon as the list of its grid samples.  The remote Earth Engine
backend (`ee.Reducer.*`, `reduceRegions`) is external to the repository;
the reductions it performs are modelled from the spec where a claim needs
them, and such definitions say so in their doc comment.
-/

namespace DengueSantaMarta

/-- The fixed statistic list, `STATISTICS` in both scripts (lines 46-49 and
45-48): the nine statistic names in their fixed enumeration order. -/
def STATISTICS : List String :=
  ["COUNT", "MINIMUM", "MEAN", "MAXIMUM", "MEDIAN", "MODE", "STD", "SUM", "VARIANCE"]

/-- Window-builder end dates, from `end_dates = start_dates[1:]`;
`end_dates.append(start_dates[-1] + pd.DateOffset(days=7))` (script 01 lines
91-92, script 02 lines 121-122).  `start_dates[-1]` on an empty list is a
Python `IndexError`, hence `none` for an empty input. -/
def end_dates (start_dates : List Int) : Option (List Int) :=
  match start_dates.getLast? with
  | none => none
  | some last => some (start_dates.drop 1 ++ [last + 7])

/-- The windows the processing loop iterates over: the loop at index `i`
uses the pair `(start_dates[i], end_dates[i])` as the half-open date range
passed to `filterDate` (script 01 line 119, script 02 lines 153 and 161). -/
def windows (start_dates : List Int) : Option (List (Int × Int)) :=
  (end_dates start_dates).map (fun e => start_dates.zip e)

/-- The per-pixel quality test of `mask_day`/`mask_night` (script 02 lines
80-91): `qa.bitwiseAnd(1 << 2).eq(0).And(qa.bitwiseAnd(1 << 3).eq(0))`.
`true` means the pixel is kept by `updateMask`. -/
def qcMask (qa : Nat) : Bool :=
  (qa &&& (1 <<< 2) == 0) && (qa &&& (1 <<< 3) == 0)

/-- One MODIS pixel as the temperature scripts see it: the LST band value,
the per-pixel QC byte, and the current mask bit (`valid = false` means the
pixel is already masked out). -/
structure Pixel where
  lst : ℚ
  qc : Nat
  valid : Bool
  deriving DecidableEq, Repr

/-- `mask_day` (script 02 lines 80-84), per pixel: `updateMask` intersects
the current mask with the QC test on the `QC_Day` byte. -/
def mask_day (p : Pixel) : Pixel :=
  { p with valid := p.valid && qcMask p.qc }

/-- `mask_night` (script 02 lines 87-91), per pixel: same QC test on the
`QC_Night` byte. -/
def mask_night (p : Pixel) : Pixel :=
  { p with valid := p.valid && qcMask p.qc }

/-- The scalar conversion of `kelvin_to_celsius_day`/`_night` (script 02
lines 94-109): `.multiply(0.02).subtract(273.15)`, i.e.
`raw * 0.02 - 273.15` with `0.02 = 2/100` and `273.15 = 27315/100`. -/
def kelvin_to_celsius (raw : ℚ) : ℚ :=
  raw * (2 / 100) - 27315 / 100

/-- `kelvin_to_celsius_day` (script 02 lines 94-100), per pixel: converts
the `LST_Day_1km` band value; the mask bit and QC byte are untouched. -/
def kelvin_to_celsius_day (p : Pixel) : Pixel :=
  { p with lst := kelvin_to_celsius p.lst }

/-- `kelvin_to_celsius_night` (script 02 lines 103-109), per pixel. -/
def kelvin_to_celsius_night (p : Pixel) : Pixel :=
  { p with lst := kelvin_to_celsius p.lst }

/-- The sample multiset entering a weekly combination (e.g. the MEDIAN
reducer): the values of the pixels whose mask bit survived. -/
def maskedValues (obs : List Pixel) : List ℚ :=
  (obs.filter (fun p => p.valid)).map (fun p => p.lst)

/-- The per-window raster selection with the empty-window fallback
(script 01 lines 122-125, script 02 lines 166-176): if zero observations
intersect the window, the raster is `ee.Image.constant(0).clip(AOI)` —
every grid sample over the polygon is `0`; otherwise the window's
observations are combined (`.sum()` resp. `.median()`, abstracted as
`combine`).  A raster over the polygon is its list of grid samples,
`cells` the polygon's grid-cell count. -/
def windowImage (combine : List (List ℚ) → List ℚ)
    (collection : List (List ℚ)) (cells : Nat) : List ℚ :=
  if collection.length = 0 then List.replicate cells 0
  else combine collection

/-- Modelled from the spec: the backend reduction for COUNT (`ee.Reducer.count`,
external to the repository) — "count of valid samples" (§4.3). -/
def statCOUNT (xs : List ℚ) : Nat := xs.length

/-- Modelled from the spec: the backend reduction for SUM (`ee.Reducer.sum`,
external) — sum over all grid samples covering the polygon (§4.3). -/
def statSUM (xs : List ℚ) : ℚ := xs.sum

/-- Modelled from the spec: the backend reduction for MEAN (`ee.Reducer.mean`,
external) — arithmetic mean of the samples (§4.3). -/
def statMEAN (xs : List ℚ) : ℚ := xs.sum / xs.length

/-- Modelled from the spec: the backend reduction for VARIANCE
(`ee.Reducer.variance`, external) — population variance of the samples (§4.3). -/
def statVARIANCE (xs : List ℚ) : ℚ :=
  (xs.map (fun x => (x - statMEAN xs) ^ 2)).sum / xs.length

/-- Modelled from the spec: the backend reduction for STD (`ee.Reducer.stdDev`,
external) — population standard deviation, the square root of the
population variance (§4.3). -/
noncomputable def statSTD (xs : List ℚ) : ℝ :=
  Real.sqrt (statVARIANCE xs)

/-- Row-major chunking of a flat list into `rows` rows of `cols` entries,
the layout `np.reshape` uses (C order). -/
def chunkRows {α : Type*} (cols : Nat) : Nat → List α → List (List α)
  | 0, _ => []
  | rows + 1, xs => xs.take cols :: chunkRows cols rows (xs.drop cols)

/-- `np.array(values).reshape(rows, cols)` (script 01 line 137, script 02
line 191): numpy raises `ValueError` — here `none` — exactly when the
element count differs from `rows * cols`; otherwise the row-major matrix. -/
def reshape {α : Type*} (rows cols : Nat) (xs : List α) : Option (List (List α)) :=
  if xs.length = rows * cols then some (chunkRows cols rows xs) else none

/-- The token extraction `str(x).split()[2]` (script 01 line 136, script 02
line 190): Python's `str.split()` splits on runs of whitespace discarding
empty tokens, and `[2]` takes the token at position 2 (`none` models the
`IndexError` when fewer than three tokens exist). -/
def tokenAt2 (s : String) : Option String :=
  ((s.split Char.isWhitespace).filter (fun t => t ≠ ""))[2]?

/-- `values = [str(x).split()[2] for x in map(str, results)]` (script 01
line 136, script 02 line 190): one token per collected result, whatever the
printed representation contains. -/
def extractValues (results : List String) : List (Option String) :=
  results.map tokenAt2

/-- The processing loop (script 01 lines 114-130, script 02 lines 148-183):
for each week index and then for each statistic name in order, append the
zonal-statistics result for that (window, statistic) pair to the result
list.  `R` is whatever a single `zonal_stats` call returns (a dataframe
with one row per polygon); the loop appends it as one element. -/
def processingLoop {R : Type*} (nWeeks : Nat) (stats : List String)
    (zonal : Nat → String → R) : List R :=
  (List.range nWeeks).foldl
    (fun acc i => stats.foldl (fun acc2 stat => acc2 ++ [zonal i stat]) acc) []

/-- The output table: an index column, named columns, and the cell matrix
(entries are the parsed string tokens). -/
structure DataFrame where
  index : List Int
  columns : List String
  data : List (List String)
  deriving DecidableEq, Repr

/-- `pd.DataFrame(matrix, index=weeks, columns=STATISTICS)` (script 01
lines 139-143, script 02 line 192). -/
def mkDataFrame (matrix : List (List String)) (weeks : List Int)
    (cols : List String) : DataFrame :=
  ⟨weeks, cols, matrix⟩

/-- `df.add_prefix(p)` (script 02 line 198): prefixes every column name. -/
def prefixColumns (p : String) (df : DataFrame) : DataFrame :=
  { df with columns := df.columns.map (fun c => p ++ c) }

/-- `pd.concat([a, b], axis=1)` (script 02 lines 197-200) for two frames
sharing the same index (both are built over the same `weeks` list): columns
of `a` then columns of `b`, rows joined positionally. -/
def concat_axis1 (a b : DataFrame) : DataFrame :=
  ⟨a.index, a.columns ++ b.columns, List.zipWith (· ++ ·) a.data b.data⟩

/-- `df_out` of the temperature script (lines 197-200):
`pd.concat([df_day.add_prefix("DAY_"), df_night.add_prefix("NIGHT_")], axis=1)`. -/
def df_out_lst (df_day df_night : DataFrame) : DataFrame :=
  concat_axis1 (prefixColumns "DAY_" df_day) (prefixColumns "NIGHT_" df_night)

/-! Helper lemmas. -/

theorem and_shiftLeft_beq_zero (qa i : Nat) :
    ((qa &&& (1 <<< i)) == 0) = !qa.testBit i := by
  rw [Nat.one_shiftLeft, Nat.and_two_pow]
  cases h : qa.testBit i <;> simp [h, Nat.pow_eq_zero]

theorem qcMask_eq_testBit (qa : Nat) :
    qcMask qa = (!qa.testBit 2 && !qa.testBit 3) := by
  simp only [qcMask, and_shiftLeft_beq_zero]

theorem chunkRows_length {α : Type*} (cols rows : Nat) (xs : List α) :
    (chunkRows cols rows xs).length = rows := by
  induction rows generalizing xs with
  | zero => rfl
  | succ r ih => simp [chunkRows, ih]

theorem chunkRows_flatten {α : Type*} (cols rows : Nat) (xs : List α)
    (h : xs.length = rows * cols) : (chunkRows cols rows xs).flatten = xs := by
  induction rows generalizing xs with
  | zero =>
      simp only [Nat.zero_mul] at h
      simp [chunkRows, List.eq_nil_of_length_eq_zero h]
  | succ r ih =>
      rw [chunkRows, List.flatten_cons,
        ih (xs.drop cols) (by rw [List.length_drop, h, add_one_mul]; omega),
        List.take_append_drop]

theorem chunkRows_get {α : Type*} (cols rows : Nat) (xs : List α)
    (h : xs.length = rows * cols) (i : Nat) (hi : i < rows) :
    (chunkRows cols rows xs).get ⟨i, by rw [chunkRows_length]; exact hi⟩ =
      (xs.drop (i * cols)).take cols := by
  induction rows generalizing xs i with
  | zero => omega
  | succ r ih =>
      cases i with
      | zero => simp [chunkRows]
      | succ i' =>
          have hlen : (xs.drop cols).length = r * cols := by
            rw [List.length_drop, h, add_one_mul]; omega
          have hrec := ih (xs.drop cols) hlen i' (by omega)
          simp only [chunkRows, List.get_cons_succ]
          rw [hrec, List.drop_drop]
          have harith : cols + i' * cols = (i' + 1) * cols := by
            rw [add_one_mul]; omega
          rw [harith]

theorem reshape_eq_none_iff {α : Type*} (rows cols : Nat) (xs : List α) :
    reshape rows cols xs = none ↔ xs.length ≠ rows * cols := by
  by_cases h : xs.length = rows * cols <;> simp [reshape, h]

theorem reshape_flatten {α : Type*} (rows cols : Nat) (xs : List α)
    (m : List (List α)) (h : reshape rows cols xs = some m) : m.flatten = xs := by
  by_cases hl : xs.length = rows * cols
  · simp only [reshape, hl, if_true, Option.some.injEq] at h
    rw [← h]
    exact chunkRows_flatten cols rows xs hl
  · simp [reshape, hl] at h

theorem end_dates_eq (starts : List Int) (h : starts ≠ []) :
    end_dates starts = some (starts.drop 1 ++ [starts.getLast h + 7]) := by
  unfold end_dates
  rw [List.getLast?_eq_getLast starts h]

theorem mask_day_convert_comm (p : Pixel) :
    kelvin_to_celsius_day (mask_day p) = mask_day (kelvin_to_celsius_day p) := rfl

theorem end_dates_get_mid (starts : List Int) (hne : starts ≠ []) (i : Nat)
    (hi1 : i + 1 < starts.length)
    (hie : i < (starts.drop 1 ++ [starts.getLast hne + 7]).length) :
    (starts.drop 1 ++ [starts.getLast hne + 7]).get ⟨i, hie⟩ =
      starts.get ⟨i + 1, hi1⟩ := by
  have hdrop : i < (starts.drop 1).length := by
    simp only [List.length_drop]; omega
  simp only [List.get_eq_getElem]
  rw [List.getElem_append, dif_pos hdrop, List.getElem_drop]
  congr 1
  omega

theorem end_dates_get_last (starts : List Int) (hne : starts ≠ [])
    (hlt : starts.length - 1 < (starts.drop 1 ++ [starts.getLast hne + 7]).length) :
    (starts.drop 1 ++ [starts.getLast hne + 7]).get ⟨starts.length - 1, hlt⟩ =
      starts.getLast hne + 7 := by
  have hge : (starts.drop 1).length ≤ starts.length - 1 := by
    simp [List.length_drop]
  simp only [List.get_eq_getElem]
  rw [List.getElem_append_right hge]
  have h0 : starts.length - 1 - (starts.drop 1).length = 0 := by
    simp only [List.length_drop]; omega
  simp [h0]

theorem zip_get (as bs : List Int) (i : Nat) (h : i < (as.zip bs).length)
    (ha : i < as.length) (hb : i < bs.length) :
    (as.zip bs).get ⟨i, h⟩ = (as.get ⟨i, ha⟩, bs.get ⟨i, hb⟩) := by
  simp [List.get_eq_getElem, List.getElem_zip]

theorem getD_eq_getElem_of_lt {α : Type*} (l : List α) (n : Nat) (d : α)
    (h : n < l.length) : l.getD n d = l[n] := by
  simp [List.getD_eq_getElem?_getD, List.getElem?_eq_getElem h]

theorem foldl_append_one_length {R : Type*} (stats : List String) (z : String → R)
    (acc : List R) :
    (stats.foldl (fun a s => a ++ [z s]) acc).length = acc.length + stats.length := by
  induction stats generalizing acc with
  | nil => simp
  | cons s t ih =>
      simp [List.foldl_cons, ih]
      omega

theorem processingLoop_length {R : Type*} (nWeeks : Nat) (stats : List String)
    (zonal : Nat → String → R) :
    (processingLoop nWeeks stats zonal).length = nWeeks * stats.length := by
  have key : ∀ (l : List Nat) (acc : List R),
      (l.foldl (fun acc i => stats.foldl (fun acc2 stat => acc2 ++ [zonal i stat]) acc)
        acc).length = acc.length + l.length * stats.length := by
    intro l
    induction l with
    | nil => simp
    | cons i t ih =>
        intro acc
        rw [List.foldl_cons, ih, foldl_append_one_length, List.length_cons, add_one_mul]
        omega
  simp only [processingLoop]
  rw [key (List.range nWeeks) []]
  simp

/-! Claim theorems. -/

/-- C3.  Quality masking: a freshly observed pixel (mask bit set) is
excluded by `mask_day` exactly when bit 2 or bit 3 of its QC byte is set,
included exactly when both are clear, and `mask_night` applies the same
test. -/
theorem qc_mask_excludes_bits_2_3 (v : ℚ) (qa : Nat) :
    ((mask_day ⟨v, qa, true⟩).valid = false ↔
      (qa.testBit 2 = true ∨ qa.testBit 3 = true)) ∧
    ((mask_day ⟨v, qa, true⟩).valid = true ↔
      (qa.testBit 2 = false ∧ qa.testBit 3 = false)) ∧
    mask_night ⟨v, qa, true⟩ = mask_day ⟨v, qa, true⟩ := by
  refine ⟨?_, ?_, rfl⟩ <;>
    · simp only [mask_day, qcMask_eq_testBit, Bool.true_and]
      cases h2 : qa.testBit 2 <;> cases h3 : qa.testBit 3 <;> simp

/-- C4, counterexample.  The conversion of raw value 13650 is
`13650 * 0.02 - 273.15 = -0.15` Celsius, not `0.35` as the claim states. -/
theorem kelvin_13650_is_minus_015 :
    kelvin_to_celsius 13650 = -(3 / 20) ∧ ¬ kelvin_to_celsius 13650 = 7 / 20 := by
  constructor <;> norm_num [kelvin_to_celsius]

/-- C4, amended.  Unit conversion: every raw stored LST value converts to
`raw * 0.02 - 273.15 = (raw * 2 - 27315) / 100` Celsius; in particular raw
value 13650 converts to `-0.15` Celsius. -/
theorem kelvin_conversion_formula (raw : ℚ) :
    kelvin_to_celsius raw = (raw * 2 - 27315) / 100 ∧
    kelvin_to_celsius 13650 = -(3 / 20) := by
  constructor
  · rw [kelvin_to_celsius]; ring
  · norm_num [kelvin_to_celsius]

/-- C5.  Strict shape contract: the reshape of the collected values fails
(numpy `ValueError`, modelled as `none`) exactly when the element count
differs from `rows * cols`; on success every element is kept in order (no
truncation or misalignment); in particular 26 results supplied where
3 × 9 = 27 are expected fail to reshape. -/
theorem reshape_strict_shape_contract :
    (∀ (xs : List String) (rows cols : Nat),
      reshape rows cols xs = none ↔ xs.length ≠ rows * cols) ∧
    (∀ (xs : List String) (rows cols : Nat) (m : List (List String)),
      reshape rows cols xs = some m → m.flatten = xs) ∧
    reshape 3 9 (List.replicate 26 "0.0") = none := by
  refine ⟨fun xs rows cols => reshape_eq_none_iff rows cols xs,
    fun xs rows cols m h => reshape_flatten rows cols xs m h, ?_⟩
  rw [reshape_eq_none_iff]
  simp

/-- C1.  Window Builder: for N ≥ 2 strictly increasing start dates the
pipeline builds exactly N half-open windows, window i's end date equals
window i+1's start date for every i < N-1, and the last window's end date
equals the last start date plus exactly 7 days. -/
theorem window_builder_builds_n_windows (starts : List Int)
    (h2 : 2 ≤ starts.length) (hmono : starts.Chain' (· < ·)) :
    ∃ ws : List (Int × Int), windows starts = some ws ∧
      ws.length = starts.length ∧
      (∀ i : Nat, (hi1 : i + 1 < ws.length) →
        (ws.get ⟨i, by omega⟩).2 = (ws.get ⟨i + 1, hi1⟩).1) ∧
      (∀ hw : ws ≠ [], ∀ hs : starts ≠ [],
        (ws.getLast hw).2 = starts.getLast hs + 7) := by
  have hne : starts ≠ [] := by
    intro hnil
    rw [hnil] at h2
    simp at h2
  have helen : (starts.drop 1 ++ [starts.getLast hne + 7]).length = starts.length := by
    simp only [List.length_append, List.length_drop, List.length_cons, List.length_nil]
    omega
  have hws : windows starts =
      some (starts.zip (starts.drop 1 ++ [starts.getLast hne + 7])) := by
    rw [windows, end_dates_eq starts hne]
    rfl
  have hwlen : (starts.zip (starts.drop 1 ++ [starts.getLast hne + 7])).length =
      starts.length := by
    rw [List.length_zip, helen]
    exact Nat.min_self _
  refine ⟨starts.zip (starts.drop 1 ++ [starts.getLast hne + 7]), hws, hwlen, ?_, ?_⟩
  · intro i hi1
    have hi1s : i + 1 < starts.length := by omega
    have his : i < starts.length := by omega
    have hie : i < (starts.drop 1 ++ [starts.getLast hne + 7]).length := by omega
    have hi1e : i + 1 < (starts.drop 1 ++ [starts.getLast hne + 7]).length := by omega
    rw [zip_get _ _ i (by omega) his hie, zip_get _ _ (i + 1) (by omega) hi1s hi1e]
    exact end_dates_get_mid starts hne i hi1s hie
  · intro hw hs
    have hlast : starts.length - 1 < starts.length := by omega
    have hlaste : starts.length - 1 <
        (starts.drop 1 ++ [starts.getLast hne + 7]).length := by omega
    have hidx : (starts.zip (starts.drop 1 ++ [starts.getLast hne + 7])).length - 1 <
        (starts.zip (starts.drop 1 ++ [starts.getLast hne + 7])).length := by omega
    have h1 := List.getLast_eq_get
      (starts.zip (starts.drop 1 ++ [starts.getLast hne + 7])) hw
    rw [h1]
    have h2 : (starts.zip (starts.drop 1 ++ [starts.getLast hne + 7])).get
        ⟨(starts.zip (starts.drop 1 ++ [starts.getLast hne + 7])).length - 1, hidx⟩ =
        (starts.zip (starts.drop 1 ++ [starts.getLast hne + 7])).get
        ⟨starts.length - 1, by omega⟩ := by
      congr 1
      simp only [Fin.mk.injEq]
      omega
    rw [h2, zip_get _ _ (starts.length - 1) (by omega) hlast hlaste]
    show (starts.drop 1 ++ [starts.getLast hne + 7]).get ⟨starts.length - 1, hlaste⟩ =
      starts.getLast hs + 7
    rw [end_dates_get_last starts hne hlaste]

/-- C1, witness at the two start dates 0 and 7. -/
theorem window_builder_builds_n_windows_witness :
    ∃ ws : List (Int × Int), windows [0, 7] = some ws ∧
      ws.length = ([0, 7] : List Int).length ∧
      (∀ i : Nat, (hi1 : i + 1 < ws.length) →
        (ws.get ⟨i, by omega⟩).2 = (ws.get ⟨i + 1, hi1⟩).1) ∧
      (∀ hw : ws ≠ [], ∀ hs : ([0, 7] : List Int) ≠ [],
        (ws.getLast hw).2 = ([0, 7] : List Int).getLast hs + 7) :=
  window_builder_builds_n_windows [0, 7] (by simp)
    (by norm_num [List.chain'_cons])

/-- C2.  Empty-window substitution: when zero source observations intersect
the window, the substituted raster is constant 0 over the polygon's `cells`
grid samples, and the downstream zonal statistics degrade to COUNT = the
full grid-cell count, SUM = 0, MEAN = 0, STD = 0, VARIANCE = 0. -/
theorem empty_window_zero_stats (combine : List (List ℚ) → List ℚ)
    (cells : Nat) (hc : 0 < cells) :
    windowImage combine [] cells = List.replicate cells 0 ∧
    statCOUNT (windowImage combine [] cells) = cells ∧
    statSUM (windowImage combine [] cells) = 0 ∧
    statMEAN (windowImage combine [] cells) = 0 ∧
    statSTD (windowImage combine [] cells) = 0 ∧
    statVARIANCE (windowImage combine [] cells) = 0 := by
  have himg : windowImage combine [] cells = List.replicate cells 0 := by
    simp [windowImage]
  have hvar : statVARIANCE (List.replicate cells (0 : ℚ)) = 0 := by
    simp [statVARIANCE, statMEAN, List.map_replicate]
  refine ⟨himg, ?_, ?_, ?_, ?_, ?_⟩ <;> rw [himg]
  · simp [statCOUNT]
  · simp [statSUM]
  · simp [statMEAN]
  · simp only [statSTD, hvar]
    norm_num
  · exact hvar

/-- C2, witness at a 3-cell polygon. -/
theorem empty_window_zero_stats_witness :
    windowImage (fun _ => []) [] 3 = List.replicate 3 0 ∧
    statCOUNT (windowImage (fun _ => []) [] 3) = 3 ∧
    statSUM (windowImage (fun _ => []) [] 3) = 0 ∧
    statMEAN (windowImage (fun _ => []) [] 3) = 0 ∧
    statSTD (windowImage (fun _ => []) [] 3) = 0 ∧
    statVARIANCE (windowImage (fun _ => []) [] 3) = 0 :=
  empty_window_zero_stats (fun _ => []) 3 (by norm_num)

/-- C6.  Output table ordering: rows are indexed by the week list in input
order, columns follow the fixed 9-statistic enumeration order, and in the
two-sub-variable table the 9 `DAY_`-prefixed columns occupy positions 0-8
and the 9 `NIGHT_`-prefixed columns positions 9-17, so every `DAY_` column
precedes every `NIGHT_` column. -/
theorem output_table_ordering (m md mn : List (List String)) (w : List Int) :
    STATISTICS = ["COUNT", "MINIMUM", "MEAN", "MAXIMUM", "MEDIAN", "MODE",
      "STD", "SUM", "VARIANCE"] ∧
    (mkDataFrame m w STATISTICS).index = w ∧
    (mkDataFrame m w STATISTICS).columns = STATISTICS ∧
    (mkDataFrame m w STATISTICS).data = m ∧
    (df_out_lst (mkDataFrame md w STATISTICS) (mkDataFrame mn w STATISTICS)).index = w ∧
    (df_out_lst (mkDataFrame md w STATISTICS) (mkDataFrame mn w STATISTICS)).columns =
      STATISTICS.map (fun s => "DAY_" ++ s) ++ STATISTICS.map (fun s => "NIGHT_" ++ s) ∧
    ((df_out_lst (mkDataFrame md w STATISTICS) (mkDataFrame mn w STATISTICS)).columns).take 9 =
      STATISTICS.map (fun s => "DAY_" ++ s) ∧
    ((df_out_lst (mkDataFrame md w STATISTICS) (mkDataFrame mn w STATISTICS)).columns).drop 9 =
      STATISTICS.map (fun s => "NIGHT_" ++ s) :=
  ⟨rfl, rfl, rfl, rfl, rfl, rfl, rfl, rfl⟩

/-- C7, counterexample.  The Window Builder performs no monotonicity check:
on the non-strictly-increasing start dates [10, 5] it does not fail — it
returns the windows [(10, 5), (5, 12)]. -/
theorem window_builder_accepts_nonmonotonic :
    ¬ List.Chain' (· < ·) ([10, 5] : List Int) ∧
    windows ([10, 5] : List Int) = some [(10, 5), (5, 12)] ∧
    windows ([10, 5] : List Int) ≠ none := by
  refine ⟨?_, rfl, ?_⟩
  · norm_num [List.chain'_cons]
  · simp [windows, end_dates]

/-- C7, amended.  The Window Builder validates nothing: it succeeds on
every nonempty start-date sequence, strictly increasing or not; its only
failure is an empty input (Python `IndexError` on `start_dates[-1]`),
modelled as `none`. -/
theorem window_builder_total_on_nonempty (starts : List Int)
    (h : starts ≠ []) :
    windows starts ≠ none ∧ windows ([] : List Int) = none := by
  constructor
  · rw [windows, end_dates_eq starts h]
    simp
  · rfl

/-- C7, witness: the amended statement at the nonempty input [10, 5]. -/
theorem window_builder_total_on_nonempty_witness :
    windows ([10, 5] : List Int) ≠ none ∧ windows ([] : List Int) = none :=
  window_builder_total_on_nonempty [10, 5] (by simp)

/-- C8.  Mask/convert order independence: converting before masking yields
the same pixel list — hence the same masked, aggregated result under any
aggregator — as masking before converting, because `mask_day` reads only
the QC byte and the mask bit (it never changes the value band) and
`kelvin_to_celsius_day` changes only the value band (it never touches the
QC byte or the mask bit). -/
theorem mask_convert_order_independent (obs : List Pixel)
    (agg : List ℚ → ℚ) :
    (obs.map mask_day).map kelvin_to_celsius_day =
      (obs.map kelvin_to_celsius_day).map mask_day ∧
    agg (maskedValues ((obs.map mask_day).map kelvin_to_celsius_day)) =
      agg (maskedValues ((obs.map kelvin_to_celsius_day).map mask_day)) ∧
    (∀ p : Pixel, (mask_day p).lst = p.lst ∧ (mask_day p).qc = p.qc ∧
      (kelvin_to_celsius_day p).valid = p.valid ∧
      (kelvin_to_celsius_day p).qc = p.qc) := by
  have hlist : (obs.map mask_day).map kelvin_to_celsius_day =
      (obs.map kelvin_to_celsius_day).map mask_day := by
    induction obs with
    | nil => rfl
    | cons p t iht =>
        simp only [List.map_cons, iht, mask_day_convert_comm p]
  exact ⟨hlist, by rw [hlist], fun p => ⟨rfl, rfl, rfl, rfl⟩⟩

/-- C9.  Positional string-parse reshape: the post-processing keeps exactly
one value per collected result — the token at position 2 of the
whitespace-split printed representation, whatever that representation holds
(so per-polygon rows beyond the first never yield extra table entries) —
and the reshaped table's cell (i, j) is exactly that token of result
number i * 9 + j. -/
theorem positional_token_reshape (results : List String) (n : Nat)
    (h : results.length = n * 9) :
    (extractValues results).length = results.length ∧
    ∃ m : List (List (Option String)),
      reshape n 9 (extractValues results) = some m ∧
      m.length = n ∧
      (∀ i j : Nat, i < n → j < 9 →
        (m.getD i []).getD j none = tokenAt2 (results.getD (i * 9 + j) "")) := by
  have hev : (extractValues results).length = results.length := by
    simp [extractValues]
  have hevn : (extractValues results).length = n * 9 := by rw [hev, h]
  refine ⟨hev, chunkRows 9 n (extractValues results), ?_,
    chunkRows_length 9 n _, ?_⟩
  · simp [reshape, hevn]
  · intro i j hi hj
    have hmlen : (chunkRows 9 n (extractValues results)).length = n :=
      chunkRows_length 9 n _
    have him : i < (chunkRows 9 n (extractValues results)).length := by omega
    rw [getD_eq_getElem_of_lt _ i [] him]
    have hrow : (chunkRows 9 n (extractValues results))[i] =
        ((extractValues results).drop (i * 9)).take 9 := by
      have hg := chunkRows_get 9 n (extractValues results) hevn i (by omega)
      simpa [List.get_eq_getElem] using hg
    rw [hrow]
    have hidx : i * 9 + j < (extractValues results).length := by
      rw [hevn]
      calc i * 9 + j < i * 9 + 9 := by omega
        _ = (i + 1) * 9 := by rw [add_one_mul]
        _ ≤ n * 9 := Nat.mul_le_mul_right 9 (by omega)
    have hdroplen : j < ((extractValues results).drop (i * 9)).length := by
      rw [List.length_drop]
      omega
    have htake : j < (((extractValues results).drop (i * 9)).take 9).length := by
      rw [List.length_take]
      omega
    rw [getD_eq_getElem_of_lt _ j none htake]
    rw [List.getElem_take, List.getElem_drop]
    have hr : i * 9 + j < results.length := by omega
    rw [getD_eq_getElem_of_lt results (i * 9 + j) "" hr]
    simp [extractValues]

/-- C9, witness: nine identical three-token results reshaped to one row. -/
theorem positional_token_reshape_witness :
    (extractValues (List.replicate 9 "gid 0 1.5")).length =
      (List.replicate 9 "gid 0 1.5").length ∧
    ∃ m : List (List (Option String)),
      reshape 1 9 (extractValues (List.replicate 9 "gid 0 1.5")) = some m ∧
      m.length = 1 ∧
      (∀ i j : Nat, i < 1 → j < 9 →
        (m.getD i []).getD j none =
          tokenAt2 ((List.replicate 9 "gid 0 1.5").getD (i * 9 + j) "")) :=
  positional_token_reshape (List.replicate 9 "gid 0 1.5") 1 (by simp)

/-- C10.  Result-count loop invariant: over N weeks the processing loop
appends exactly one result per statistic per window, so it exits with
exactly N × 9 accumulated results whatever a single zonal call returns
(in particular however many polygons the study area holds), and the
subsequent reshape of the extracted values to an (N, 9) matrix always
receives a matching element count and cannot fail. -/
theorem loop_result_count_invariant (R : Type) (nWeeks : Nat)
    (zonal : Nat → String → R) (zonalTxt : Nat → String → String) :
    (processingLoop nWeeks STATISTICS zonal).length = nWeeks * 9 ∧
    reshape nWeeks 9 (extractValues (processingLoop nWeeks STATISTICS zonalTxt)) ≠
      none := by
  have h1 : (processingLoop nWeeks STATISTICS zonal).length = nWeeks * 9 :=
    processingLoop_length nWeeks STATISTICS zonal
  have h2 : (extractValues (processingLoop nWeeks STATISTICS zonalTxt)).length =
      nWeeks * 9 := by
    simp only [extractValues, List.length_map]
    exact processingLoop_length nWeeks STATISTICS zonalTxt
  refine ⟨h1, ?_⟩
  rw [ne_eq, reshape_eq_none_iff]
  simp [h2]

end DengueSantaMarta
